import Mathlib

/-!
Verification development for the cone-beam projector core of the repository
(`src/mbirjax/cone_beam.py`).  The Python source is shallowly embedded:

* arrays of reals / integers are Lean `List ℝ` / `List ℤ` (or the small
  `NDArr` n-dimensional array model below where numpy broadcasting matters);
* the geometry chain (`recon_ijk_to_xyz`, `geometry_xyz_to_uv_mag`,
  `detector_uv_to_mn`) is embedded pointwise over `ℝ` — the vectorized jnp
  code applies exactly these scalar formulas elementwise;
* `jnp.round` is round-half-to-even (`jround` below), `jnp.arctan2` is
  `atan2` below;
* gather (`x[idx]`) wraps negative indices and clamps out-of-bounds ones,
  scatter (`lax.index_add`) wraps negative indices and drops out-of-bounds
  updates, both following the documented jax semantics;
* Python exceptions become `Except` errors.
-/

open scoped Classical

/-- Total list indexing with an explicit default, modelling array access. -/
def getIdx {α : Type} (dflt : α) : List α → ℕ → α
  | [], _ => dflt
  | a :: _, 0 => a
  | _ :: l, n + 1 => getIdx dflt l n

/-- `jnp.round`: round half to even (banker's rounding), as an integer. -/
noncomputable def jround (x : ℝ) : ℤ :=
  if Int.fract x = 1 / 2 then 2 * round (x / 2) else round x

/-- `jnp.arctan2 y x`: the angle of the point `(x, y)`. -/
noncomputable def atan2 (y x : ℝ) : ℝ :=
  if 0 < x then Real.arctan (y / x)
  else if x < 0 ∧ 0 ≤ y then Real.arctan (y / x) + Real.pi
  else if x < 0 then Real.arctan (y / x) - Real.pi
  else if 0 < y then Real.pi / 2
  else if y < 0 then -(Real.pi / 2)
  else 0

/-- A boolean mask entry (`True ↦ 1.0`, `False ↦ 0.0`), as produced by the
comparisons `(Bij_channel >= 0)` etc. in the source. -/
noncomputable def boolInd (P : Prop) : ℝ := if P then 1 else 0

/-- Geometry parameter bundle, in the order unpacked from
`geometry_params` in `compute_sparse_Bij_Cij_single_view`. -/
structure GeomParams where
  delta_det_channel : ℝ
  delta_det_row : ℝ
  det_channel_offset : ℝ
  det_row_offset : ℝ
  det_rotation : ℝ
  source_detector_dist : ℝ
  magnification : ℝ
  delta_pixel_recon : ℝ
  recon_slice_offset : ℝ

/-- `projector_params`: sinogram shape `(num_views, num_det_rows,
num_det_channels)`, recon shape `(rows, cols, slices)` and the geometry
parameters. -/
structure ProjectorParams where
  num_views : ℕ
  num_det_rows : ℕ
  num_det_channels : ℕ
  num_recon_rows : ℕ
  num_recon_cols : ℕ
  num_recon_slices : ℕ
  geom : GeomParams

/-- Inner helper `recon_ijk_to_xyz` of the source: voxel indices to
unrotated, centered physical coordinates, rotated by the view angle. -/
noncomputable def recon_ijk_to_xyz (i j k : ℕ) (delta_pixel_recon : ℝ)
    (num_recon_rows num_recon_cols num_recon_slices : ℕ)
    (recon_slice_offset angle : ℝ) : ℝ × ℝ × ℝ :=
  let x_tilde := delta_pixel_recon * ((i : ℝ) - ((num_recon_rows : ℝ) - 1) / 2)
  let y_tilde := delta_pixel_recon * ((j : ℝ) - ((num_recon_cols : ℝ) - 1) / 2)
  let x := Real.cos angle * x_tilde - Real.sin angle * y_tilde
  let y := Real.sin angle * x_tilde + Real.cos angle * y_tilde
  let z := delta_pixel_recon * ((k : ℝ) - ((num_recon_slices : ℝ) - 1) / 2) + recon_slice_offset
  (x, y, z)

/-- Inner helper `geometry_xyz_to_uv_mag` of the source.  The source raises
a ValueError when `source_to_iso_dist - y == 0`; the embedding is total
(real division by zero yields the Lean junk value `0`); no claim touches
the degenerate-geometry case and every concrete input used below has a
nonzero denominator. -/
noncomputable def geometry_xyz_to_uv_mag (x y z source_detector_dist magnification : ℝ) :
    ℝ × ℝ × ℝ :=
  let source_to_iso_dist := source_detector_dist / magnification
  let pixel_mag := source_detector_dist / (source_to_iso_dist - y)
  (pixel_mag * x, pixel_mag * z, pixel_mag)

/-- Inner helper `detector_uv_to_mn` of the source: detector-plane physical
coordinates to fractional (row, channel) detector indices `(m, n)`. -/
noncomputable def detector_uv_to_mn
    (u v det_rotation delta_det_channel delta_det_row det_channel_offset det_row_offset : ℝ)
    (num_det_rows num_det_channels : ℕ) : ℝ × ℝ :=
  let u_tilde := Real.cos det_rotation * u + Real.sin det_rotation * v
  let v_tilde := -Real.sin det_rotation * u + Real.cos det_rotation * v
  let det_center_channels := ((num_det_channels : ℝ) - 1) / 2
  let det_center_rows := ((num_det_rows : ℝ) - 1) / 2
  let n := u_tilde / delta_det_channel + det_center_channels + det_channel_offset
  let m := v_tilde / delta_det_row + det_center_rows + det_row_offset
  (m, n)

/-- The per-(voxel, slice) scalar quantities computed by the vectorized
middle section of `compute_sparse_Bij_Cij_single_view`: fractional detector
coordinates `mp`, `np`, the two `cos_alpha` factors and the two projected
widths `W_col`, `W_row`. -/
structure KernelGeom where
  mp : ℝ
  np : ℝ
  cos_alpha_col : ℝ
  cos_alpha_row : ℝ
  W_col : ℝ
  W_row : ℝ

/-- The geometry chain of `compute_sparse_Bij_Cij_single_view` for one
`(i, j, k)` element (the source computes it for all elements at once with
elementwise array operations). -/
noncomputable def kernelGeom (pp : ProjectorParams) (angle : ℝ) (i j k : ℕ) : KernelGeom :=
  let g := pp.geom
  let xyz := recon_ijk_to_xyz i j k g.delta_pixel_recon
    pp.num_recon_rows pp.num_recon_cols pp.num_recon_slices g.recon_slice_offset angle
  let uvm := geometry_xyz_to_uv_mag xyz.1 xyz.2.1 xyz.2.2 g.source_detector_dist g.magnification
  let mn := detector_uv_to_mn uvm.1 uvm.2.1 g.det_rotation g.delta_det_channel g.delta_det_row
    g.det_channel_offset g.det_row_offset pp.num_det_rows pp.num_det_channels
  let cone_angle_channel := atan2 uvm.1 g.source_detector_dist
  let cone_angle_row := atan2 uvm.2.1 g.source_detector_dist
  let cos_alpha_col := max |Real.cos (angle - cone_angle_channel)| |Real.sin (angle - cone_angle_channel)|
  let cos_alpha_row := max |Real.cos cone_angle_row| |Real.sin cone_angle_row|
  let W_col := uvm.2.2 * (g.delta_pixel_recon / g.delta_det_channel) * (cos_alpha_col / Real.cos cone_angle_channel)
  let W_row := uvm.2.2 * (g.delta_pixel_recon / g.delta_det_row) * (cos_alpha_row / Real.cos cone_angle_row)
  ⟨mn.1, mn.2, cos_alpha_col, cos_alpha_row, W_col, W_row⟩

/-- One row of `Bij_channel`: the source centers the `2p+1` candidate
channel indices at `jnp.round(mp)` — the fractional ROW coordinate `mp`,
not the channel coordinate `np` (the computed `np` is never used). -/
noncomputable def bijChannelRow (pp : ProjectorParams) (angle : ℝ) (i j k p : ℕ) : List ℤ :=
  (List.range (2 * p + 1)).map (fun (t : ℕ) => jround (kernelGeom pp angle i j k).mp + (t : ℤ) - (p : ℤ))

/-- One row of `Bij_value`: channel-direction weights
`(delta_pixel_recon / cos_alpha_col) * (L_channel / delta_det_channel)`,
masked to zero outside `[0, num_det_channels)`.  `delta_channel` is the
distance of the candidate index from `mp` (as in the source). -/
noncomputable def bijValueRow (pp : ProjectorParams) (angle : ℝ) (i j k p : ℕ) : List ℝ :=
  let kg := kernelGeom pp angle i j k
  (bijChannelRow pp angle i j k p).map (fun (ch : ℤ) =>
    (pp.geom.delta_pixel_recon / kg.cos_alpha_col) *
      (max ((kg.W_col + 1) / 2 - max |(kg.W_col - 1) / 2| |(ch : ℝ) - kg.mp|) 0 /
        pp.geom.delta_det_channel) *
      boolInd (0 ≤ ch) * boolInd (ch < (pp.num_det_channels : ℤ)))

/-- One row of `Cij_row`: the `2p+1` candidate row indices centered at
`jnp.round(mp)`. -/
noncomputable def cijRowRow (pp : ProjectorParams) (angle : ℝ) (i j k p : ℕ) : List ℤ :=
  (List.range (2 * p + 1)).map (fun (t : ℕ) => jround (kernelGeom pp angle i j k).mp + (t : ℤ) - (p : ℤ))

/-- One row of `Cij_value`: row-direction weights.  The source computes
`(delta_pixel_recon / cos_alpha_col) * (L_row / delta_det_row)` — note it
uses `cos_alpha_col`, not `cos_alpha_row` — masked to zero outside
`[0, num_det_rows)`. -/
noncomputable def cijValueRow (pp : ProjectorParams) (angle : ℝ) (i j k p : ℕ) : List ℝ :=
  let kg := kernelGeom pp angle i j k
  (cijRowRow pp angle i j k p).map (fun (r : ℤ) =>
    (pp.geom.delta_pixel_recon / kg.cos_alpha_col) *
      (max ((kg.W_row + 1) / 2 - max |(kg.W_row - 1) / 2| |(r : ℝ) - kg.mp|) 0 /
        pp.geom.delta_det_row) *
      boolInd (0 ≤ r) * boolInd (r < (pp.num_det_rows : ℤ)))

/-- The flattened `(voxel, slice)` index lists of the source:
`i = tile(row_index, (S,1)).T.flatten()`, `j` likewise, and
`k = tile(arange(S), (N,1)).flatten()` — i.e. each pixel index is expanded
to all `num_recon_slices` slices, slice index varying fastest.
`jnp.unravel_index` clamps an out-of-range flat index into the valid range
before splitting it into `(row, col)`. -/
def ijkList (pixel_indices : List ℕ) (num_recon_rows num_recon_cols num_recon_slices : ℕ) :
    List (ℕ × ℕ × ℕ) :=
  pixel_indices.flatMap (fun idx =>
    (List.range num_recon_slices).map (fun k =>
      (min idx (num_recon_rows * num_recon_cols - 1) / num_recon_cols,
       min idx (num_recon_rows * num_recon_cols - 1) % num_recon_cols, k)))

/-- `compute_sparse_Bij_Cij_single_view`: the sparse separable system
matrices for a batch of pixel indices and a single view.  Returns
`(Bij_value, Bij_channel, Cij_value, Cij_row)`, each with one row per
flattened `(voxel, slice)` pair and `2p+1` columns.  The two
`warnings.warn` calls of the source are side-effect free diagnostics and
are not modelled. -/
noncomputable def compute_sparse_Bij_Cij_single_view (pixel_indices : List ℕ) (angle : ℝ)
    (pp : ProjectorParams) (p : ℕ := 1) :
    List (List ℝ) × List (List ℤ) × List (List ℝ) × List (List ℤ) :=
  let elems := ijkList pixel_indices pp.num_recon_rows pp.num_recon_cols pp.num_recon_slices
  (elems.map (fun e => bijValueRow pp angle e.1 e.2.1 e.2.2 p),
   elems.map (fun e => bijChannelRow pp angle e.1 e.2.1 e.2.2 p),
   elems.map (fun e => cijValueRow pp angle e.1 e.2.1 e.2.2 p),
   elems.map (fun e => cijRowRow pp angle e.1 e.2.1 e.2.2 p))

/-- A minimal n-dimensional array: a shape and the row-major flattened
data.  Used where numpy/jax broadcasting semantics matter. -/
structure NDArr (α : Type) where
  shape : List ℕ
  flat : List α

/-- Row-major enumeration of all multi-indices of a shape (first axis
slowest), in the order of the flattened data. -/
def allIdx : List ℕ → List (List ℕ)
  | [] => [[]]
  | d :: ds => (List.range d).flatMap (fun x => (allIdx ds).map (fun ix => x :: ix))

/-- Row-major flat offset of a multi-index. -/
def offsetOf (shape idx : List ℕ) : ℕ :=
  (shape.zip idx).foldl (fun acc di => acc * di.1 + di.2) 0

/-- Map a multi-index over a broadcast result shape back to a multi-index
of the (shorter, possibly size-1-dimensional) source shape: drop the extra
leading axes and zero the coordinates of size-1 axes. -/
def bIndex (ashape idx : List ℕ) : List ℕ :=
  (ashape.zip (idx.drop (idx.length - ashape.length))).map
    (fun di => if di.1 = 1 then 0 else di.2)

/-- Broadcast-aware element read. -/
def NDArr.getB {α : Type} (a : NDArr α) (dflt : α) (idx : List ℕ) : α :=
  getIdx dflt a.flat (offsetOf a.shape (bIndex a.shape idx))

/-- Combine one pair of dimensions under numpy broadcasting. -/
def bcDim (a b : ℕ) : Option ℕ :=
  if a = b then some a else if a = 1 then some b else if b = 1 then some a else none

/-- Sequence a list of optional dimensions. -/
def seqOption : List (Option ℕ) → Option (List ℕ)
  | [] => some []
  | o :: os => o.bind (fun x => (seqOption os).map (fun xs => x :: xs))

/-- Left-pad a shape with 1s to a given rank. -/
def padShape (n : ℕ) (s : List ℕ) : List ℕ := List.replicate (n - s.length) 1 ++ s

/-- The numpy broadcast of two shapes, `none` when incompatible. -/
def broadcastShapes (s t : List ℕ) : Option (List ℕ) :=
  seqOption (List.zipWith bcDim (padShape (max s.length t.length) s) (padShape (max s.length t.length) t))

/-- Elementwise product with numpy broadcasting; `none` models the Python
TypeError raised on incompatible shapes. -/
noncomputable def NDArr.mul (a b : NDArr ℝ) : Option (NDArr ℝ) :=
  (broadcastShapes a.shape b.shape).map
    (fun s => ⟨s, (allIdx s).map (fun ix => a.getB 0 ix * b.getB 0 ix)⟩)

/-- `jnp.broadcast_to`: requires the source shape to broadcast to exactly
the target shape. -/
def broadcastTo {α : Type} (a : NDArr α) (dflt : α) (s : List ℕ) : Option (NDArr α) :=
  if broadcastShapes a.shape s = some s then some ⟨s, (allIdx s).map (a.getB dflt)⟩ else none

/-- `voxel_values[:, None, None]` for a rank-2 array: shape `(N, 1, 1, S)`,
same row-major data. -/
def expandMid (a : NDArr ℝ) : NDArr ℝ :=
  ⟨[getIdx 0 a.shape 0, 1, 1, getIdx 0 a.shape 1], a.flat⟩

/-- `jnp.einsum('ki,kj->kij', a, b)` for rank-2 `a`, `b`. -/
noncomputable def einsum_ki_kj_kij (a b : NDArr ℝ) : NDArr ℝ :=
  ⟨[getIdx 0 a.shape 0, getIdx 0 a.shape 1, getIdx 0 b.shape 1],
   (allIdx [getIdx 0 a.shape 0, getIdx 0 a.shape 1, getIdx 0 b.shape 1]).map (fun ix =>
     getIdx 0 a.flat (getIdx 0 ix 0 * getIdx 0 a.shape 1 + getIdx 0 ix 1) *
       getIdx 0 b.flat (getIdx 0 ix 0 * getIdx 0 b.shape 1 + getIdx 0 ix 2))⟩

/-- Normalize a scatter index along one axis: negative indices wrap, and
out-of-bounds updates are dropped (`none`), per jax `index_add`. -/
def normScatterIdx (d : ℕ) (i : ℤ) : Option ℕ :=
  if 0 ≤ (if i < 0 then i + d else i) ∧ (if i < 0 then i + d else i) < d
  then some (if i < 0 then i + d else i).toNat else none

/-- The flat destination offset of one scatter update, `none` if dropped. -/
def scatterOff (num_rows num_cols : ℕ) (ri ci : ℤ) : Option ℕ :=
  (normScatterIdx num_rows ri).bind
    (fun r => (normScatterIdx num_cols ci).map (fun c => r * num_cols + c))

/-- Sum of all scatter updates landing on flat cell `o`. -/
noncomputable def scatSum (num_rows num_cols o : ℕ) : List ℤ → List ℤ → List ℝ → ℝ
  | r :: rs, c :: cs, x :: xs =>
      (if scatterOff num_rows num_cols r c = some o then x else 0) +
        scatSum num_rows num_cols o rs cs xs
  | _, _, _ => 0

/-- `lax.index_add(zeros((num_rows, num_cols)), (rows, cols), vals)`:
colliding updates accumulate by summation. -/
noncomputable def index_add (num_rows num_cols : ℕ) (rows cols : List ℤ) (vals : List ℝ) :
    NDArr ℝ :=
  ⟨[num_rows, num_cols],
   (List.range (num_rows * num_cols)).map (fun o => scatSum num_rows num_cols o rows cols vals)⟩

/-- Normalize a gather index along one axis: negative indices wrap, then
the index is clamped into the valid range, per jax array indexing. -/
def clampGatherIdx (d : ℕ) (i : ℤ) : ℕ :=
  (min (max (if i < 0 then i + d else i) 0) ((d : ℤ) - 1)).toNat

/-- `sinogram_view[ri, ci]` for a rank-2 array with jax gather semantics. -/
def gather2 (a : NDArr ℝ) (ri ci : ℤ) : ℝ :=
  getIdx 0 a.flat
    (clampGatherIdx (getIdx 0 a.shape 0) ri * getIdx 0 a.shape 1 +
      clampGatherIdx (getIdx 0 a.shape 1) ci)

/-- Errors of the projector entry points: `inputShape` is the
ValueError raised on a non-rank-2 `voxel_values` (the spec's
InputShapeError), `broadcastFail` the TypeError numpy raises when shapes
do not broadcast. -/
inductive ProjErr where
  | inputShape
  | broadcastFail
deriving DecidableEq

/-- `forward_project_voxels_one_view`: forward projection of one view.
Follows the source line by line: rank-2 guard; sparse matrices;
`outer_products = einsum('ki,kj->kij', Bij_value, Bij_value) *
voxel_values[:, None, None]` (note: `Bij_value` with itself, and the
rank-2 `voxel_values` is broadcast against the rank-3 einsum result);
row and column index grids both built from `Cij_row`; scatter-add into a
zero detector image. -/
noncomputable def forward_project_voxels_one_view (voxel_values : NDArr ℝ)
    (pixel_indices : List ℕ) (angle : ℝ) (pp : ProjectorParams) : Except ProjErr (NDArr ℝ) :=
  if voxel_values.shape.length ≠ 2 then Except.error ProjErr.inputShape
  else
    let sp := compute_sparse_Bij_Cij_single_view pixel_indices angle pp
    let Bij_value := sp.1
    let Cij_row := sp.2.2.2
    let BvA : NDArr ℝ := ⟨[Bij_value.length, (Bij_value.headD []).length], Bij_value.flatten⟩
    match (einsum_ki_kj_kij BvA BvA).mul (expandMid voxel_values) with
    | none => Except.error ProjErr.broadcastFail
    | some outer =>
      let rowsE : NDArr ℤ := ⟨[Cij_row.length, (Cij_row.headD []).length, 1], Cij_row.flatten⟩
      let colsE : NDArr ℤ := ⟨[Cij_row.length, 1, (Cij_row.headD []).length], Cij_row.flatten⟩
      match broadcastTo rowsE 0 outer.shape, broadcastTo colsE 0 outer.shape with
      | some rA, some cA =>
          Except.ok (index_add pp.num_det_rows pp.num_det_channels rA.flat cA.flat outer.flat)
      | _, _ => Except.error ProjErr.broadcastFail

/-- `back_project_one_view_to_voxel`: back projection of one sinogram view
onto the given pixels.  Follows the source: the detector shape is taken
from the view itself (`(1,) + sinogram_view.shape`); the sinogram is
gathered at the `(Cij_row, Bij_channel)` index grids; each gathered value
is weighted by `(Bij_value[:, :, None] * Cij_row[:, None, :]) **
coeff_power` (note: `Cij_row`, the integer row-index array) and summed
over the two footprint axes. -/
noncomputable def back_project_one_view_to_voxel (sinogram_view : NDArr ℝ)
    (pixel_index : List ℕ) (angle : ℝ) (pp : ProjectorParams) (coeff_power : ℕ := 1) :
    List ℝ :=
  let ppv := ProjectorParams.mk 1 (getIdx 0 sinogram_view.shape 0) (getIdx 0 sinogram_view.shape 1)
    pp.num_recon_rows pp.num_recon_cols pp.num_recon_slices pp.geom
  let sp := compute_sparse_Bij_Cij_single_view pixel_index angle ppv
  let Bij_value := sp.1
  let Bij_channel := sp.2.1
  let Cij_row := sp.2.2.2
  let psf_width := (Bij_value.headD []).length
  (List.range Bij_value.length).map (fun v =>
    (((List.range psf_width).map (fun i =>
      (((List.range psf_width).map (fun j =>
        gather2 sinogram_view (getIdx 0 (getIdx [] Cij_row v) i)
            (getIdx 0 (getIdx [] Bij_channel v) j) *
          (getIdx 0 (getIdx [] Bij_value v) i *
            ((getIdx 0 (getIdx [] Cij_row v) j : ℤ) : ℝ)) ^ coeff_power)).sum))).sum))

/-- Dot product of two arrays of the same shape (flattened). -/
noncomputable def dotND (a b : NDArr ℝ) : ℝ :=
  (List.zipWith (fun x y => x * y) a.flat b.flat).sum

/-- Dot product of two vectors. -/
noncomputable def dotList (a b : List ℝ) : ℝ :=
  (List.zipWith (fun x y => x * y) a b).sum

/-- Modelled from the spec: the channel-direction candidate indices as the
spec describes them — `2p+1` consecutive integers centered at the rounding
of the fractional CHANNEL coordinate `n` (the source instead rounds the
row coordinate `mp`). -/
noncomputable def bijChannelRowSpec (pp : ProjectorParams) (angle : ℝ) (i j k p : ℕ) : List ℤ :=
  (List.range (2 * p + 1)).map (fun (t : ℕ) => jround (kernelGeom pp angle i j k).np + (t : ℤ) - (p : ℤ))

/-- Modelled from the spec: the row-direction weight as the spec describes
it — `(voxel_pitch / cos_alpha_row) * (L_row / delta_det_row)`, using the
row direction's own `cos_alpha` (the source instead uses
`cos_alpha_col`). -/
noncomputable def cijValueRowSpec (pp : ProjectorParams) (angle : ℝ) (i j k p : ℕ) : List ℝ :=
  let kg := kernelGeom pp angle i j k
  (cijRowRow pp angle i j k p).map (fun (r : ℤ) =>
    (pp.geom.delta_pixel_recon / kg.cos_alpha_row) *
      (max ((kg.W_row + 1) / 2 - max |(kg.W_row - 1) / 2| |(r : ℝ) - kg.mp|) 0 /
        pp.geom.delta_det_row) *
      boolInd (0 ≤ r) * boolInd (r < (pp.num_det_rows : ℤ)))

/-- Modelled from the spec: the forward projection as the spec describes
it — for each flattened (voxel, slice) pair `v` the 2D weight is the outer
product of the channel-direction weights `Bij_value` and row-direction
weights `Cij_value`, scaled by the pair's voxel value, scatter-accumulated
at the `(Cij_row, Bij_channel)` destination pairs. -/
noncomputable def forward_project_spec (voxel_values : NDArr ℝ) (pixel_indices : List ℕ)
    (angle : ℝ) (pp : ProjectorParams) : NDArr ℝ :=
  let sp := compute_sparse_Bij_Cij_single_view pixel_indices angle pp
  let Bv := sp.1
  let Bch := sp.2.1
  let Cv := sp.2.2.1
  let Crow := sp.2.2.2
  let w := (Bv.headD []).length
  ⟨[pp.num_det_rows, pp.num_det_channels],
   (List.range (pp.num_det_rows * pp.num_det_channels)).map (fun o =>
     (((List.range Bv.length).map (fun v =>
       (((List.range w).map (fun i =>
         (((List.range w).map (fun j =>
           if scatterOff pp.num_det_rows pp.num_det_channels
               (getIdx 0 (getIdx [] Crow v) i) (getIdx 0 (getIdx [] Bch v) j) = some o
           then getIdx 0 (getIdx [] Bv v) j * getIdx 0 (getIdx [] Cv v) i *
             getIdx 0 voxel_values.flat v
           else 0)).sum))).sum))).sum))⟩

/-- Modelled from the spec: the back projection as the spec describes it —
gather the view at the `(Cij_row, Bij_channel)` grids and weight each
gathered value by `(Bij_value * Cij_value) ^ coeff_power` (the weight
product raised to the power before summation). -/
noncomputable def back_project_spec (sinogram_view : NDArr ℝ) (pixel_index : List ℕ)
    (angle : ℝ) (pp : ProjectorParams) (coeff_power : ℕ) : List ℝ :=
  let ppv := ProjectorParams.mk 1 (getIdx 0 sinogram_view.shape 0) (getIdx 0 sinogram_view.shape 1)
    pp.num_recon_rows pp.num_recon_cols pp.num_recon_slices pp.geom
  let sp := compute_sparse_Bij_Cij_single_view pixel_index angle ppv
  let Bij_value := sp.1
  let Bij_channel := sp.2.1
  let Cij_value := sp.2.2.1
  let Cij_row := sp.2.2.2
  let psf_width := (Bij_value.headD []).length
  (List.range Bij_value.length).map (fun v =>
    (((List.range psf_width).map (fun i =>
      (((List.range psf_width).map (fun j =>
        gather2 sinogram_view (getIdx 0 (getIdx [] Cij_row v) i)
            (getIdx 0 (getIdx [] Bij_channel v) j) *
          (getIdx 0 (getIdx [] Bij_value v) j *
            getIdx 0 (getIdx [] Cij_value v) i) ^ coeff_power)).sum))).sum))

/-- Standard test geometry: unit pitches and voxel size, no offsets, no
detector rotation, source-detector distance 4, magnification 1. -/
def geomStd : GeomParams := GeomParams.mk 1 1 0 0 0 4 1 1 0

/-- Sinogram shape (1, 3, 3), recon shape (1, 1, 1), standard geometry. -/
def pp1 : ProjectorParams := ProjectorParams.mk 1 3 3 1 1 1 geomStd

theorem jround_intCast (n : ℤ) : jround ((n : ℤ) : ℝ) = n := by
  simp [jround, Int.fract_intCast, round_intCast]

theorem jround_one : jround (1 : ℝ) = 1 := by
  have h := jround_intCast 1
  norm_num at h
  exact h

theorem atan2_zero_four : atan2 0 4 = 0 := by
  norm_num [atan2, Real.arctan_zero]

theorem kg_pp1 : kernelGeom pp1 0 0 0 0 = KernelGeom.mk 1 1 1 1 1 1 := by
  unfold kernelGeom recon_ijk_to_xyz geometry_xyz_to_uv_mag detector_uv_to_mn atan2
  norm_num [pp1, geomStd, Real.cos_zero, Real.sin_zero, Real.arctan_zero, max_def]

theorem getIdx_nil {α : Type} (d : α) (n : ℕ) : getIdx d [] n = d := by
  cases n <;> rfl

theorem getIdx_c0 {α : Type} (d a : α) (l : List α) : getIdx d (a :: l) 0 = a := rfl

theorem getIdx_c1 {α : Type} (d a b : α) (l : List α) : getIdx d (a :: b :: l) 1 = b := rfl

theorem getIdx_c2 {α : Type} (d a b c : α) (l : List α) : getIdx d (a :: b :: c :: l) 2 = c := rfl

theorem getIdx_c3 {α : Type} (d a b c e : α) (l : List α) :
    getIdx d (a :: b :: c :: e :: l) 3 = e := rfl

theorem getIdx_c4 {α : Type} (d a b c e f : α) (l : List α) :
    getIdx d (a :: b :: c :: e :: f :: l) 4 = f := rfl

theorem getIdx_c5 {α : Type} (d a b c e f g : α) (l : List α) :
    getIdx d (a :: b :: c :: e :: f :: g :: l) 5 = g := rfl

theorem getIdx_c6 {α : Type} (d a b c e f g h : α) (l : List α) :
    getIdx d (a :: b :: c :: e :: f :: g :: h :: l) 6 = h := rfl

theorem getIdx_c7 {α : Type} (d a b c e f g h i : α) (l : List α) :
    getIdx d (a :: b :: c :: e :: f :: g :: h :: i :: l) 7 = i := rfl

theorem getIdx_c8 {α : Type} (d a b c e f g h i j : α) (l : List α) :
    getIdx d (a :: b :: c :: e :: f :: g :: h :: i :: j :: l) 8 = j := rfl

theorem bijChannelRow_pp1 : bijChannelRow pp1 0 0 0 0 1 = [0, 1, 2] := by
  have hr : List.range 3 = [0, 1, 2] := rfl
  simp [bijChannelRow, kg_pp1, jround_one, hr]

theorem cijRowRow_pp1 : cijRowRow pp1 0 0 0 0 1 = [0, 1, 2] := by
  have hr : List.range 3 = [0, 1, 2] := rfl
  simp [cijRowRow, kg_pp1, jround_one, hr]

theorem bijValueRow_pp1 : bijValueRow pp1 0 0 0 0 1 = [0, 1, 0] := by
  simp [bijValueRow, bijChannelRow_pp1, kg_pp1, boolInd]
  norm_num [pp1, geomStd, max_def]

theorem cijValueRow_pp1 : cijValueRow pp1 0 0 0 0 1 = [0, 1, 0] := by
  simp [cijValueRow, cijRowRow_pp1, kg_pp1, boolInd]
  norm_num [pp1, geomStd, max_def]

theorem sparse_pp1 : compute_sparse_Bij_Cij_single_view [0] 0 pp1 1 =
    ([[0, 1, 0]], [[0, 1, 2]], [[0, 1, 0]], [[0, 1, 2]]) := by
  have hik : ijkList [0] pp1.num_recon_rows pp1.num_recon_cols pp1.num_recon_slices =
      [(0, 0, 0)] := rfl
  simp [compute_sparse_Bij_Cij_single_view, hik, bijValueRow_pp1, bijChannelRow_pp1,
    cijValueRow_pp1, cijRowRow_pp1]

theorem einsum_pp1 : einsum_ki_kj_kij (NDArr.mk [1, 3] [(0:ℝ), 1, 0]) (NDArr.mk [1, 3] [(0:ℝ), 1, 0]) =
    NDArr.mk [1, 3, 3] [0, 0, 0, 0, 1, 0, 0, 0, 0] := by
  have h0 : einsum_ki_kj_kij (NDArr.mk [1, 3] [(0:ℝ), 1, 0]) (NDArr.mk [1, 3] [(0:ℝ), 1, 0]) =
      NDArr.mk [1, 3, 3] [0*0, 0*1, 0*0, 1*0, 1*1, 1*0, 0*0, 0*1, 0*0] := rfl
  rw [h0]
  norm_num

theorem mul_pp1 : NDArr.mul (NDArr.mk [1, 3, 3] [(0:ℝ), 0, 0, 0, 1, 0, 0, 0, 0])
    (expandMid (NDArr.mk [1, 1] [(1:ℝ)])) =
    some (NDArr.mk [1, 1, 3, 3] [0, 0, 0, 0, 1, 0, 0, 0, 0]) := by
  have h0 : NDArr.mul (NDArr.mk [1, 3, 3] [(0:ℝ), 0, 0, 0, 1, 0, 0, 0, 0])
      (expandMid (NDArr.mk [1, 1] [(1:ℝ)])) =
      some (NDArr.mk [1, 1, 3, 3] [0*1, 0*1, 0*1, 0*1, 1*1, 0*1, 0*1, 0*1, 0*1]) := rfl
  rw [h0]
  norm_num

theorem bt_rows_pp1 : broadcastTo (NDArr.mk [1, 3, 1] [(0:ℤ), 1, 2]) 0 [1, 1, 3, 3] =
    some (NDArr.mk [1, 1, 3, 3] [0, 0, 0, 1, 1, 1, 2, 2, 2]) := rfl

theorem bt_cols_pp1 : broadcastTo (NDArr.mk [1, 1, 3] [(0:ℤ), 1, 2]) 0 [1, 1, 3, 3] =
    some (NDArr.mk [1, 1, 3, 3] [0, 1, 2, 0, 1, 2, 0, 1, 2]) := rfl

theorem ia_pp1 : index_add 3 3 [0, 0, 0, 1, 1, 1, 2, 2, 2] [0, 1, 2, 0, 1, 2, 0, 1, 2]
    [(0:ℝ), 0, 0, 0, 1, 0, 0, 0, 0] = NDArr.mk [3, 3] [0, 0, 0, 0, 1, 0, 0, 0, 0] := by
  have h0 : index_add 3 3 [0, 0, 0, 1, 1, 1, 2, 2, 2] [0, 1, 2, 0, 1, 2, 0, 1, 2]
      [(0:ℝ), 0, 0, 0, 1, 0, 0, 0, 0] = NDArr.mk [3, 3]
      [0+(0+(0+(0+(0+(0+(0+(0+(0+0)))))))), 0+(0+(0+(0+(0+(0+(0+(0+(0+0)))))))),
       0+(0+(0+(0+(0+(0+(0+(0+(0+0)))))))), 0+(0+(0+(0+(0+(0+(0+(0+(0+0)))))))),
       0+(0+(0+(0+(1+(0+(0+(0+(0+0)))))))), 0+(0+(0+(0+(0+(0+(0+(0+(0+0)))))))),
       0+(0+(0+(0+(0+(0+(0+(0+(0+0)))))))), 0+(0+(0+(0+(0+(0+(0+(0+(0+0)))))))),
       0+(0+(0+(0+(0+(0+(0+(0+(0+0))))))))] := rfl
  rw [h0]
  norm_num

theorem forward_pp1 : forward_project_voxels_one_view (NDArr.mk [1, 1] [1]) [0] 0 pp1 =
    Except.ok (NDArr.mk [3, 3] [0, 0, 0, 0, 1, 0, 0, 0, 0]) := by
  simp only [forward_project_voxels_one_view, sparse_pp1]
  norm_num [List.flatten, einsum_pp1, mul_pp1, bt_rows_pp1, bt_cols_pp1, ia_pp1, pp1]

theorem back_pp1 : back_project_one_view_to_voxel
    (NDArr.mk [3, 3] [0, 0, 0, 0, 0, 1, 0, 0, 0]) [0] 0 pp1 1 = [2] := by
  have hppv : ProjectorParams.mk 1
      (getIdx 0 ((NDArr.mk [3, 3] [(0:ℝ), 0, 0, 0, 0, 1, 0, 0, 0]).shape) 0)
      (getIdx 0 ((NDArr.mk [3, 3] [(0:ℝ), 0, 0, 0, 0, 1, 0, 0, 0]).shape) 1)
      pp1.num_recon_rows pp1.num_recon_cols pp1.num_recon_slices pp1.geom = pp1 := rfl
  have hr1 : List.range 1 = [0] := rfl
  have hr3 : List.range 3 = [0, 1, 2] := rfl
  have hcg0 : clampGatherIdx 3 0 = 0 := rfl
  have hcg1 : clampGatherIdx 3 1 = 1 := rfl
  have hcg2 : clampGatherIdx 3 2 = 2 := rfl
  simp only [back_project_one_view_to_voxel, hppv, sparse_pp1]
  norm_num [hr1, hr3, gather2, hcg0, hcg1, hcg2, getIdx_c0, getIdx_c1, getIdx_c2, getIdx_c3,
    getIdx_c4, getIdx_c5, getIdx_c6, getIdx_c7, getIdx_c8]

/-- Claim C1: the adjointness `dot(forward_project_voxels_one_view(x), y) =
dot(x, back_project_one_view_to_voxel(y, coeff_power = 1))` FAILS on the
code.  At the concrete input below (recon shape (1,1,1), sinogram shape
(1,3,3), unit pitches, no offsets, angle 0, x the single unit voxel, y the
detector indicator at (row 1, channel 2)) the forward side gives 0 and the
back side gives 2. -/
theorem C1_adjoint_identity_fails :
    (forward_project_voxels_one_view (NDArr.mk [1, 1] [1]) [0] 0 pp1).map
      (fun F => dotND F (NDArr.mk [3, 3] [0, 0, 0, 0, 0, 1, 0, 0, 0])) = Except.ok 0 ∧
    dotList [1]
      (back_project_one_view_to_voxel (NDArr.mk [3, 3] [0, 0, 0, 0, 0, 1, 0, 0, 0]) [0] 0 pp1 1) =
      2 ∧
    (0 : ℝ) ≠ 2 := by
  refine ⟨?_, ?_, by norm_num⟩
  · rw [forward_pp1]
    norm_num [Except.map, dotND]
  · rw [back_pp1]
    norm_num [dotList]

/-- Geometry with detector row pitch 2 (all else as `geomStd`). -/
def geom2 : GeomParams := GeomParams.mk 1 2 0 0 0 4 1 1 0

/-- Sinogram shape (1, 3, 3), recon shape (1, 1, 1), row pitch 2. -/
def pp2 : ProjectorParams := ProjectorParams.mk 1 3 3 1 1 1 geom2

theorem kg_pp2 : kernelGeom pp2 0 0 0 0 = KernelGeom.mk 1 1 1 1 1 (1 / 2) := by
  unfold kernelGeom recon_ijk_to_xyz geometry_xyz_to_uv_mag detector_uv_to_mn atan2
  norm_num [pp2, geom2, Real.cos_zero, Real.sin_zero, Real.arctan_zero, max_def]

theorem bijChannelRow_pp2 : bijChannelRow pp2 0 0 0 0 1 = [0, 1, 2] := by
  have hr : List.range 3 = [0, 1, 2] := rfl
  simp [bijChannelRow, kg_pp2, jround_one, hr]

theorem cijRowRow_pp2 : cijRowRow pp2 0 0 0 0 1 = [0, 1, 2] := by
  have hr : List.range 3 = [0, 1, 2] := rfl
  simp [cijRowRow, kg_pp2, jround_one, hr]

theorem bijValueRow_pp2 : bijValueRow pp2 0 0 0 0 1 = [0, 1, 0] := by
  simp [bijValueRow, bijChannelRow_pp2, kg_pp2, boolInd]
  norm_num [pp2, geom2, max_def]

theorem cijValueRow_pp2 : cijValueRow pp2 0 0 0 0 1 = [0, 1 / 4, 0] := by
  have h14 : |(1:ℝ) / 4| = 1 / 4 := abs_of_nonneg (by norm_num)
  simp [cijValueRow, cijRowRow_pp2, kg_pp2, boolInd]
  norm_num [pp2, geom2, max_def, h14]

theorem sparse_pp2 : compute_sparse_Bij_Cij_single_view [0] 0 pp2 1 =
    ([[0, 1, 0]], [[0, 1, 2]], [[0, 1 / 4, 0]], [[0, 1, 2]]) := by
  have hik : ijkList [0] pp2.num_recon_rows pp2.num_recon_cols pp2.num_recon_slices =
      [(0, 0, 0)] := rfl
  simp [compute_sparse_Bij_Cij_single_view, hik, bijValueRow_pp2, bijChannelRow_pp2,
    cijValueRow_pp2, cijRowRow_pp2]

theorem forward_pp2 : forward_project_voxels_one_view (NDArr.mk [1, 1] [1]) [0] 0 pp2 =
    Except.ok (NDArr.mk [3, 3] [0, 0, 0, 0, 1, 0, 0, 0, 0]) := by
  simp only [forward_project_voxels_one_view, sparse_pp2]
  norm_num [List.flatten, einsum_pp1, mul_pp1, bt_rows_pp1, bt_cols_pp1, ia_pp1, pp2]

theorem fspec_pp2 : getIdx 0 (forward_project_spec (NDArr.mk [1, 1] [1]) [0] 0 pp2).flat 4 =
    1 / 4 := by
  have hr1 : List.range 1 = [0] := rfl
  have hr3 : List.range 3 = [0, 1, 2] := rfl
  have hr9 : List.range 9 = [0, 1, 2, 3, 4, 5, 6, 7, 8] := rfl
  have hs00 : scatterOff 3 3 0 0 = some 0 := rfl
  have hs01 : scatterOff 3 3 0 1 = some 1 := rfl
  have hs02 : scatterOff 3 3 0 2 = some 2 := rfl
  have hs10 : scatterOff 3 3 1 0 = some 3 := rfl
  have hs11 : scatterOff 3 3 1 1 = some 4 := rfl
  have hs12 : scatterOff 3 3 1 2 = some 5 := rfl
  have hs20 : scatterOff 3 3 2 0 = some 6 := rfl
  have hs21 : scatterOff 3 3 2 1 = some 7 := rfl
  have hs22 : scatterOff 3 3 2 2 = some 8 := rfl
  simp only [forward_project_spec, sparse_pp2]
  norm_num [hr1, hr3, hr9, hs00, hs01, hs02, hs10, hs11, hs12, hs20, hs21, hs22,
    getIdx_c0, getIdx_c1, getIdx_c2, getIdx_c3, getIdx_c4, getIdx_c5, getIdx_c6,
    getIdx_c7, getIdx_c8, pp2]

/-- Claim C2: the forward projector does NOT implement the outer product of
the channel-direction weights (`Bij_value`) and row-direction weights
(`Cij_value`) scattered at `(Cij_row, Bij_channel)`: the source forms
`Bij_value ⊗ Bij_value` and scatters at `(Cij_row, Cij_row)`.  At the
concrete input below (row pitch 2, so that `Cij_value ≠ Bij_value`) the
code puts 1 at detector cell (1,1) while the spec-described computation
puts 1/4 there. -/
theorem C2_forward_scatter_diverges_from_spec :
    (forward_project_voxels_one_view (NDArr.mk [1, 1] [1]) [0] 0 pp2).map
      (fun F => getIdx 0 F.flat 4) = Except.ok 1 ∧
    getIdx 0 (forward_project_spec (NDArr.mk [1, 1] [1]) [0] 0 pp2).flat 4 = 1 / 4 ∧
    (1 : ℝ) ≠ 1 / 4 := by
  refine ⟨?_, fspec_pp2, by norm_num⟩
  rw [forward_pp2]
  norm_num [Except.map, getIdx_c4]

theorem backspec_pp1 : back_project_spec
    (NDArr.mk [3, 3] [0, 0, 0, 0, 0, 1, 0, 0, 0]) [0] 0 pp1 1 = [0] := by
  have hppv : ProjectorParams.mk 1
      (getIdx 0 ((NDArr.mk [3, 3] [(0:ℝ), 0, 0, 0, 0, 1, 0, 0, 0]).shape) 0)
      (getIdx 0 ((NDArr.mk [3, 3] [(0:ℝ), 0, 0, 0, 0, 1, 0, 0, 0]).shape) 1)
      pp1.num_recon_rows pp1.num_recon_cols pp1.num_recon_slices pp1.geom = pp1 := rfl
  have hr1 : List.range 1 = [0] := rfl
  have hr3 : List.range 3 = [0, 1, 2] := rfl
  have hcg0 : clampGatherIdx 3 0 = 0 := rfl
  have hcg1 : clampGatherIdx 3 1 = 1 := rfl
  have hcg2 : clampGatherIdx 3 2 = 2 := rfl
  simp only [back_project_spec, hppv, sparse_pp1]
  norm_num [hr1, hr3, gather2, hcg0, hcg1, hcg2, getIdx_c0, getIdx_c1, getIdx_c2, getIdx_c3,
    getIdx_c4, getIdx_c5, getIdx_c6, getIdx_c7, getIdx_c8]

/-- Claim C3: the back projector does NOT weight the gathered detector
values by `(Bij_value * Cij_value) ^ coeff_power`: the source multiplies
`Bij_value` by `Cij_row` — the integer row-INDEX array — instead of
`Cij_value`.  At the concrete input of C1 the code returns [2] while the
spec-described weighting returns [0]. -/
theorem C3_back_weight_uses_row_index_array :
    back_project_one_view_to_voxel
      (NDArr.mk [3, 3] [0, 0, 0, 0, 0, 1, 0, 0, 0]) [0] 0 pp1 1 = [2] ∧
    back_project_spec
      (NDArr.mk [3, 3] [0, 0, 0, 0, 0, 1, 0, 0, 0]) [0] 0 pp1 1 = [0] ∧
    ([2] : List ℝ) ≠ [0] := by
  refine ⟨back_pp1, backspec_pp1, by norm_num⟩

theorem jround_two : jround (2 : ℝ) = 2 := by
  have h := jround_intCast 2
  norm_num at h
  exact h

/-- Sinogram shape (1, 3, 5) — five channels, three rows — recon shape
(1, 1, 1), standard geometry, so the fractional channel coordinate is
`n = 2` while the row coordinate is `m = 1`. -/
def pp4 : ProjectorParams := ProjectorParams.mk 1 3 5 1 1 1 geomStd

theorem kg_pp4 : kernelGeom pp4 0 0 0 0 = KernelGeom.mk 1 2 1 1 1 1 := by
  unfold kernelGeom recon_ijk_to_xyz geometry_xyz_to_uv_mag detector_uv_to_mn atan2
  norm_num [pp4, geomStd, Real.cos_zero, Real.sin_zero, Real.arctan_zero, max_def]

theorem bijChannelRow_pp4 : bijChannelRow pp4 0 0 0 0 1 = [0, 1, 2] := by
  have hr : List.range 3 = [0, 1, 2] := rfl
  simp [bijChannelRow, kg_pp4, jround_one, hr]

theorem sparse_pp4_bch : (compute_sparse_Bij_Cij_single_view [0] 0 pp4 1).2.1 = [[0, 1, 2]] := by
  have hik : ijkList [0] pp4.num_recon_rows pp4.num_recon_cols pp4.num_recon_slices =
      [(0, 0, 0)] := rfl
  simp [compute_sparse_Bij_Cij_single_view, hik, bijChannelRow_pp4]

theorem bijChannelRowSpec_pp4 : bijChannelRowSpec pp4 0 0 0 0 1 = [1, 2, 3] := by
  have hr : List.range 3 = [0, 1, 2] := rfl
  simp [bijChannelRowSpec, kg_pp4, jround_two, hr]

/-- Claim C4: the channel-direction candidate indices `Bij_channel` are NOT
centered at the rounding of the fractional channel coordinate `n`: the
source centers them at `round(mp)`, the fractional ROW coordinate (`np` is
computed and never used).  With 5 channels and 3 rows and a center voxel,
`n = 2` and `m = 1`: the code produces the row [0, 1, 2] instead of the
claimed [1, 2, 3].  (The row-direction indices `Cij_row` are centered at
`round(m)` as claimed.) -/
theorem C4_bij_channel_centered_at_row_coordinate :
    (compute_sparse_Bij_Cij_single_view [0] 0 pp4 1).2.1 = [[0, 1, 2]] ∧
    bijChannelRowSpec pp4 0 0 0 0 1 = [1, 2, 3] ∧
    ([[0, 1, 2]] : List (List ℤ)) ≠ [[1, 2, 3]] :=
  ⟨sparse_pp4_bch, bijChannelRowSpec_pp4, by decide⟩

theorem kg_pi4 : kernelGeom pp1 (Real.pi / 4) 0 0 0 =
    KernelGeom.mk 1 1 (Real.sqrt 2 / 2) 1 (Real.sqrt 2 / 2) 1 := by
  have habs : |Real.sqrt 2 / 2| = Real.sqrt 2 / 2 := abs_of_nonneg (by positivity)
  unfold kernelGeom recon_ijk_to_xyz geometry_xyz_to_uv_mag detector_uv_to_mn atan2
  norm_num [pp1, geomStd, Real.cos_zero, Real.sin_zero, Real.arctan_zero,
    Real.cos_pi_div_four, Real.sin_pi_div_four, habs, max_def]

theorem cijRowRow_pi4 : cijRowRow pp1 (Real.pi / 4) 0 0 0 1 = [0, 1, 2] := by
  have hr : List.range 3 = [0, 1, 2] := rfl
  simp [cijRowRow, kg_pi4, jround_one, hr]

theorem cijValueRow_pi4 : cijValueRow pp1 (Real.pi / 4) 0 0 0 1 = [0, Real.sqrt 2, 0] := by
  have h2 : (1 : ℝ) / (Real.sqrt 2 / 2) = Real.sqrt 2 := by
    rw [one_div_div]
    exact Real.div_sqrt
  simp [cijValueRow, cijRowRow_pi4, kg_pi4, boolInd]
  norm_num [pp1, geomStd, max_def, h2]

theorem sparse_pi4_cv : (compute_sparse_Bij_Cij_single_view [0] (Real.pi / 4) pp1 1).2.2.1 =
    [[0, Real.sqrt 2, 0]] := by
  have hik : ijkList [0] pp1.num_recon_rows pp1.num_recon_cols pp1.num_recon_slices =
      [(0, 0, 0)] := rfl
  simp [compute_sparse_Bij_Cij_single_view, hik, cijValueRow_pi4]

theorem cijValueRowSpec_pi4 : cijValueRowSpec pp1 (Real.pi / 4) 0 0 0 1 = [0, 1, 0] := by
  simp [cijValueRowSpec, cijRowRow_pi4, kg_pi4, boolInd]
  norm_num [pp1, geomStd, max_def]

theorem sqrt_two_ne_one : Real.sqrt 2 ≠ 1 := by
  have h1 : (1 : ℝ) < Real.sqrt 2 := (Real.lt_sqrt (by norm_num)).mpr (by norm_num)
  exact ne_of_gt h1

/-- Claim C5: the row-direction weight `Cij_value` does NOT use the row
direction's own `cos_alpha`: the source divides by `cos_alpha_col`.  At
view angle π/4 and a center voxel, `cos_alpha_col = √2/2` while
`cos_alpha_row = 1`, so the code's central row weight is `√2` while the
claimed formula `(voxel_pitch / cos_alpha_row) * (L / delta_det_row)`
gives 1.  (The channel-direction weight `Bij_value` does use
`cos_alpha_col` and `delta_det_channel` as claimed.) -/
theorem C5_cij_value_uses_wrong_cos_alpha :
    (compute_sparse_Bij_Cij_single_view [0] (Real.pi / 4) pp1 1).2.2.1 =
      [[0, Real.sqrt 2, 0]] ∧
    cijValueRowSpec pp1 (Real.pi / 4) 0 0 0 1 = [0, 1, 0] ∧
    Real.sqrt 2 ≠ 1 :=
  ⟨sparse_pi4_cv, cijValueRowSpec_pi4, sqrt_two_ne_one⟩

theorem getIdx_lt {α : Type} (d : α) (l : List α) (v : ℕ) (hv : v < l.length) :
    getIdx d l v = l.get ⟨v, hv⟩ := by
  induction l generalizing v with
  | nil => simp at hv
  | cons a l ih =>
    cases v with
    | zero => rfl
    | succ n => exact ih n (by simpa using hv)

theorem getIdx_ge {α : Type} (d : α) (l : List α) (v : ℕ) (hv : l.length ≤ v) :
    getIdx d l v = d := by
  induction l generalizing v with
  | nil => exact getIdx_nil d v
  | cons a l ih =>
    cases v with
    | zero => simp at hv
    | succ n => exact ih n (by simpa using hv)

theorem getIdx_map_lt {α β : Type} (f : α → β) (d : β) (l : List α) (v : ℕ)
    (hv : v < l.length) : getIdx d (l.map f) v = f (l.get ⟨v, hv⟩) := by
  induction l generalizing v with
  | nil => simp at hv
  | cons a l ih =>
    cases v with
    | zero => rfl
    | succ n => exact ih n (by simpa using hv)

theorem bijChannelRow_length (pp : ProjectorParams) (angle : ℝ) (i j k p : ℕ) :
    (bijChannelRow pp angle i j k p).length = 2 * p + 1 := by
  simp [bijChannelRow]

theorem cijRowRow_length (pp : ProjectorParams) (angle : ℝ) (i j k p : ℕ) :
    (cijRowRow pp angle i j k p).length = 2 * p + 1 := by
  simp [cijRowRow]

theorem bijValueRow_length (pp : ProjectorParams) (angle : ℝ) (i j k p : ℕ) :
    (bijValueRow pp angle i j k p).length = 2 * p + 1 := by
  simp [bijValueRow, bijChannelRow]

theorem cijValueRow_length (pp : ProjectorParams) (angle : ℝ) (i j k p : ℕ) :
    (cijValueRow pp angle i j k p).length = 2 * p + 1 := by
  simp [cijValueRow, cijRowRow]

/-- Claim C6: whenever a candidate channel index of `Bij_channel` lies
outside `[0, num_det_channels)` the matching `Bij_value` weight is exactly
0, and whenever a candidate row index of `Cij_row` lies outside
`[0, num_det_rows)` the matching `Cij_value` weight is exactly 0; the
out-of-range entries are kept (every value row keeps its full `2p+1`
length) rather than dropped. -/
theorem C6_bounds_zeroing (pixel_indices : List ℕ) (angle : ℝ) (pp : ProjectorParams)
    (p v t : ℕ) :
    (¬ (0 ≤ getIdx 0 (getIdx [] (compute_sparse_Bij_Cij_single_view pixel_indices angle pp p).2.1 v) t ∧
        getIdx 0 (getIdx [] (compute_sparse_Bij_Cij_single_view pixel_indices angle pp p).2.1 v) t <
          (pp.num_det_channels : ℤ)) →
      getIdx 0 (getIdx [] (compute_sparse_Bij_Cij_single_view pixel_indices angle pp p).1 v) t = 0) ∧
    (¬ (0 ≤ getIdx 0 (getIdx [] (compute_sparse_Bij_Cij_single_view pixel_indices angle pp p).2.2.2 v) t ∧
        getIdx 0 (getIdx [] (compute_sparse_Bij_Cij_single_view pixel_indices angle pp p).2.2.2 v) t <
          (pp.num_det_rows : ℤ)) →
      getIdx 0 (getIdx [] (compute_sparse_Bij_Cij_single_view pixel_indices angle pp p).2.2.1 v) t = 0) ∧
    (∀ row ∈ (compute_sparse_Bij_Cij_single_view pixel_indices angle pp p).1,
      row.length = 2 * p + 1) ∧
    (∀ row ∈ (compute_sparse_Bij_Cij_single_view pixel_indices angle pp p).2.2.1,
      row.length = 2 * p + 1) := by
  simp only [compute_sparse_Bij_Cij_single_view]
  refine ⟨?_, ?_, ?_, ?_⟩
  · intro hout
    by_cases hv : v < (ijkList pixel_indices pp.num_recon_rows pp.num_recon_cols pp.num_recon_slices).length
    · rw [getIdx_map_lt _ _ _ v hv] at hout ⊢
      by_cases ht : t < 2 * p + 1
      · have hlenc := bijChannelRow_length pp angle
          ((ijkList pixel_indices pp.num_recon_rows pp.num_recon_cols pp.num_recon_slices).get ⟨v, hv⟩).1
          ((ijkList pixel_indices pp.num_recon_rows pp.num_recon_cols pp.num_recon_slices).get ⟨v, hv⟩).2.1
          ((ijkList pixel_indices pp.num_recon_rows pp.num_recon_cols pp.num_recon_slices).get ⟨v, hv⟩).2.2 p
        have htc : t < (bijChannelRow pp angle
            ((ijkList pixel_indices pp.num_recon_rows pp.num_recon_cols pp.num_recon_slices).get ⟨v, hv⟩).1
            ((ijkList pixel_indices pp.num_recon_rows pp.num_recon_cols pp.num_recon_slices).get ⟨v, hv⟩).2.1
            ((ijkList pixel_indices pp.num_recon_rows pp.num_recon_cols pp.num_recon_slices).get ⟨v, hv⟩).2.2 p).length := by
          rw [hlenc]; exact ht
        rw [getIdx_lt 0 _ t htc] at hout
        simp only [bijValueRow]
        rw [getIdx_map_lt _ _ _ t htc]
        rcases not_and_or.mp hout with h | h
        · simp only [boolInd, if_neg h, mul_zero, zero_mul]
        · simp only [boolInd, if_neg h, mul_zero, zero_mul]
      · rw [getIdx_ge]
        rw [bijValueRow_length]
        omega
    · rw [getIdx_ge [] _ v (by simpa using Nat.le_of_not_lt hv), getIdx_nil]
  · intro hout
    by_cases hv : v < (ijkList pixel_indices pp.num_recon_rows pp.num_recon_cols pp.num_recon_slices).length
    · rw [getIdx_map_lt _ _ _ v hv] at hout ⊢
      by_cases ht : t < 2 * p + 1
      · have hlenc := cijRowRow_length pp angle
          ((ijkList pixel_indices pp.num_recon_rows pp.num_recon_cols pp.num_recon_slices).get ⟨v, hv⟩).1
          ((ijkList pixel_indices pp.num_recon_rows pp.num_recon_cols pp.num_recon_slices).get ⟨v, hv⟩).2.1
          ((ijkList pixel_indices pp.num_recon_rows pp.num_recon_cols pp.num_recon_slices).get ⟨v, hv⟩).2.2 p
        have htc : t < (cijRowRow pp angle
            ((ijkList pixel_indices pp.num_recon_rows pp.num_recon_cols pp.num_recon_slices).get ⟨v, hv⟩).1
            ((ijkList pixel_indices pp.num_recon_rows pp.num_recon_cols pp.num_recon_slices).get ⟨v, hv⟩).2.1
            ((ijkList pixel_indices pp.num_recon_rows pp.num_recon_cols pp.num_recon_slices).get ⟨v, hv⟩).2.2 p).length := by
          rw [hlenc]; exact ht
        rw [getIdx_lt 0 _ t htc] at hout
        simp only [cijValueRow]
        rw [getIdx_map_lt _ _ _ t htc]
        rcases not_and_or.mp hout with h | h
        · simp only [boolInd, if_neg h, mul_zero, zero_mul]
        · simp only [boolInd, if_neg h, mul_zero, zero_mul]
      · rw [getIdx_ge]
        rw [cijValueRow_length]
        omega
    · rw [getIdx_ge [] _ v (by simpa using Nat.le_of_not_lt hv), getIdx_nil]
  · intro row hrow
    obtain ⟨e, he, hrow⟩ := List.mem_map.mp hrow
    rw [← hrow]
    exact bijValueRow_length pp angle e.1 e.2.1 e.2.2 p
  · intro row hrow
    obtain ⟨e, he, hrow⟩ := List.mem_map.mp hrow
    rw [← hrow]
    exact cijValueRow_length pp angle e.1 e.2.1 e.2.2 p

/-- Sinogram shape (1, 3, 2) — only two channels — recon shape (1, 1, 1),
standard geometry, so the candidate channel index 2 is out of bounds. -/
def pp6 : ProjectorParams := ProjectorParams.mk 1 3 2 1 1 1 geomStd

theorem kg_pp6 : kernelGeom pp6 0 0 0 0 = KernelGeom.mk 1 (1 / 2) 1 1 1 1 := by
  unfold kernelGeom recon_ijk_to_xyz geometry_xyz_to_uv_mag detector_uv_to_mn atan2
  norm_num [pp6, geomStd, Real.cos_zero, Real.sin_zero, Real.arctan_zero, max_def]

theorem bijChannelRow_pp6 : bijChannelRow pp6 0 0 0 0 1 = [0, 1, 2] := by
  have hr : List.range 3 = [0, 1, 2] := rfl
  simp [bijChannelRow, kg_pp6, jround_one, hr]

theorem sparse_pp6_bch : (compute_sparse_Bij_Cij_single_view [0] 0 pp6 1).2.1 = [[0, 1, 2]] := by
  have hik : ijkList [0] pp6.num_recon_rows pp6.num_recon_cols pp6.num_recon_slices =
      [(0, 0, 0)] := rfl
  simp [compute_sparse_Bij_Cij_single_view, hik, bijChannelRow_pp6]

theorem C6_bounds_zeroing_witness :
    (¬ ((0 : ℤ) ≤ getIdx 0 (getIdx [] (compute_sparse_Bij_Cij_single_view [0] 0 pp6 1).2.1 0) 2 ∧
        getIdx 0 (getIdx [] (compute_sparse_Bij_Cij_single_view [0] 0 pp6 1).2.1 0) 2 <
          (pp6.num_det_channels : ℤ))) ∧
    getIdx 0 (getIdx [] (compute_sparse_Bij_Cij_single_view [0] 0 pp6 1).2.1 0) 2 = 2 ∧
    getIdx 0 (getIdx [] (compute_sparse_Bij_Cij_single_view [0] 0 pp6 1).1 0) 2 = 0 := by
  have hc : getIdx 0 (getIdx [] (compute_sparse_Bij_Cij_single_view [0] 0 pp6 1).2.1 0) 2 = 2 := by
    rw [sparse_pp6_bch]
    decide
  refine ⟨by rw [hc]; decide, hc, ?_⟩
  exact (C6_bounds_zeroing [0] 0 pp6 1 0 2).1 (by rw [hc]; decide)

/-- The model-configuration validation errors (the source raises ValueError
with a parameter-specific message; the spec's taxonomy calls this class of
eager validation failures ConfigurationError). -/
inductive ConfigError where
  | view_count_mismatch
  | slice_row_mismatch
deriving DecidableEq

/-- The configuration data `verify_valid_params` reads: the sinogram shape,
the number of view-dependent parameter vectors (`view_params_array.shape[0]`,
one stacked row per angle), and the recon shape. -/
structure ModelConfig where
  num_views : ℕ
  num_det_rows : ℕ
  num_det_channels : ℕ
  view_params_count : ℕ
  recon_rows : ℕ
  recon_cols : ℕ
  recon_slices : ℕ

/-- `ConeBeamModel.verify_valid_params`: raises when the number of
view-dependent parameter vectors differs from `sinogram_shape[0]`, then
when `recon_shape[2]` differs from `sinogram_shape[1]`.  The source first
calls `super().verify_valid_params()`, whose body is not part of this
repository; Modelled from the spec: the spec's error taxonomy lists
exactly these two conditions as the ConfigurationError cases, so the
parent check is modelled as accepting. -/
def verify_valid_params (m : ModelConfig) : Except ConfigError Unit :=
  if m.view_params_count ≠ m.num_views then Except.error ConfigError.view_count_mismatch
  else if m.recon_slices ≠ m.num_det_rows then Except.error ConfigError.slice_row_mismatch
  else Except.ok ()

/-- Claim C7: model validation fails exactly when the number of
view-dependent parameter vectors differs from the number of views, or the
number of recon slices differs from the number of detector rows; in
particular a 16-entry angles array with `sinogram_shape[0] = 32` is
rejected. -/
theorem C7_config_validation (m : ModelConfig) :
    ((∃ e, verify_valid_params m = Except.error e) ↔
      (m.view_params_count ≠ m.num_views ∨ m.recon_slices ≠ m.num_det_rows)) ∧
    (∃ e, verify_valid_params (ModelConfig.mk 32 64 64 16 64 64 64) = Except.error e) := by
  constructor
  · constructor
    · rintro ⟨e, he⟩
      by_contra hno
      push_neg at hno
      simp [verify_valid_params, hno.1, hno.2] at he
    · intro h
      by_cases h1 : m.view_params_count ≠ m.num_views
      · exact ⟨ConfigError.view_count_mismatch, by simp [verify_valid_params, h1]⟩
      · have h2 : m.recon_slices ≠ m.num_det_rows := h.resolve_left h1
        exact ⟨ConfigError.slice_row_mismatch, by simp [verify_valid_params, h1, h2]⟩
  · exact ⟨ConfigError.view_count_mismatch, rfl⟩

theorem C7_config_validation_witness :
    (∃ e, verify_valid_params (ModelConfig.mk 32 64 64 16 64 64 64) = Except.error e) ∧
    ((16 : ℕ) ≠ 32 ∨ (64 : ℕ) ≠ 64) :=
  ⟨(C7_config_validation (ModelConfig.mk 32 64 64 16 64 64 64)).1.mpr
      (Or.inl (by decide)), Or.inl (by decide)⟩

/-- Claim C9: the forward projector returns the input-shape error exactly
for non-rank-2 `voxel_values`; on every rank-2 input it never raises that
error (it either succeeds or fails with the later broadcasting error). -/
theorem C9_forward_rank_guard (voxel_values : NDArr ℝ) (pixel_indices : List ℕ)
    (angle : ℝ) (pp : ProjectorParams) :
    (forward_project_voxels_one_view voxel_values pixel_indices angle pp =
      Except.error ProjErr.inputShape) ↔ voxel_values.shape.length ≠ 2 := by
  simp only [forward_project_voxels_one_view]
  by_cases h : voxel_values.shape.length = 2
  · rw [if_neg (by simp [h])]
    simp only [h, ne_eq, not_true_eq_false, iff_false]
    intro habs
    split at habs <;> try split at habs
    all_goals simp at habs
  · rw [if_pos h]
    simp [h]

theorem C9_forward_rank_guard_witness :
    forward_project_voxels_one_view (NDArr.mk [2] [0, 0]) [0] 0 pp1 =
      Except.error ProjErr.inputShape :=
  (C9_forward_rank_guard (NDArr.mk [2] [0, 0]) [0] 0 pp1).mpr (by decide)

theorem getIdx_append_lt {α : Type} (d : α) (l1 l2 : List α) (n : ℕ) (h : n < l1.length) :
    getIdx d (l1 ++ l2) n = getIdx d l1 n := by
  induction l1 generalizing n with
  | nil => simp at h
  | cons a l ih =>
    cases n with
    | zero => rfl
    | succ m => exact ih m (by simpa using h)

theorem getIdx_append_ge {α : Type} (d : α) (l1 l2 : List α) (n : ℕ) (h : l1.length ≤ n) :
    getIdx d (l1 ++ l2) n = getIdx d l2 (n - l1.length) := by
  induction l1 generalizing n with
  | nil => simp
  | cons a l ih =>
    cases n with
    | zero => simp at h
    | succ m => simpa using ih m (by simpa using h)

theorem ijkList_length (l : List ℕ) (R C S : ℕ) : (ijkList l R C S).length = l.length * S := by
  induction l with
  | nil => simp [ijkList]
  | cons a l ih =>
    simp only [ijkList, List.flatMap_cons, List.length_append, List.length_map,
      List.length_range, List.length_cons]
    simp only [ijkList] at ih
    rw [ih]
    ring

theorem ijkList_getIdx (l : List ℕ) (R C S v s : ℕ) (d : ℕ × ℕ × ℕ) (hv : v < l.length)
    (hs : s < S) :
    getIdx d (ijkList l R C S) (v * S + s) =
      (min (l.getD v 0) (R * C - 1) / C, min (l.getD v 0) (R * C - 1) % C, s) := by
  induction l generalizing v with
  | nil => simp at hv
  | cons a l ih =>
    have h0 : ijkList (a :: l) R C S =
        (List.range S).map (fun k => (min a (R * C - 1) / C, min a (R * C - 1) % C, k)) ++
          ijkList l R C S := by
      simp [ijkList]
    cases v with
    | zero =>
      rw [h0, show 0 * S + s = s by ring,
        getIdx_append_lt _ _ _ s (by simpa using hs),
        getIdx_map_lt _ _ _ s (by simpa using hs)]
      simp
    | succ v =>
      rw [h0, show (v + 1) * S + s = S + (v * S + s) by ring,
        getIdx_append_ge _ _ _ _ (by simp)]
      simp only [List.length_map, List.length_range, Nat.add_sub_cancel_left,
        List.getD_cons_succ]
      exact ih v (by simpa using hv)

/-- Claim C8: all four outputs of the sparse kernel builder have outer
length `num_indices * num_recon_slices` and row length `2p+1`, and the
flattened (voxel, slice) ordering has the slice index varying fastest: the
entry at flat position `v * num_recon_slices + s` is the row computed for
pixel index `pixel_indices[v]` (unraveled over the recon plane) at slice
`s`. -/
theorem C8_shapes_and_ordering (pixel_indices : List ℕ) (angle : ℝ) (pp : ProjectorParams)
    (p v s : ℕ) (hv : v < pixel_indices.length) (hs : s < pp.num_recon_slices) :
    ((compute_sparse_Bij_Cij_single_view pixel_indices angle pp p).1.length =
        pixel_indices.length * pp.num_recon_slices ∧
      (compute_sparse_Bij_Cij_single_view pixel_indices angle pp p).2.1.length =
        pixel_indices.length * pp.num_recon_slices ∧
      (compute_sparse_Bij_Cij_single_view pixel_indices angle pp p).2.2.1.length =
        pixel_indices.length * pp.num_recon_slices ∧
      (compute_sparse_Bij_Cij_single_view pixel_indices angle pp p).2.2.2.length =
        pixel_indices.length * pp.num_recon_slices) ∧
    ((∀ row ∈ (compute_sparse_Bij_Cij_single_view pixel_indices angle pp p).1,
        row.length = 2 * p + 1) ∧
      (∀ row ∈ (compute_sparse_Bij_Cij_single_view pixel_indices angle pp p).2.1,
        row.length = 2 * p + 1) ∧
      (∀ row ∈ (compute_sparse_Bij_Cij_single_view pixel_indices angle pp p).2.2.1,
        row.length = 2 * p + 1) ∧
      (∀ row ∈ (compute_sparse_Bij_Cij_single_view pixel_indices angle pp p).2.2.2,
        row.length = 2 * p + 1)) ∧
    (getIdx [] (compute_sparse_Bij_Cij_single_view pixel_indices angle pp p).1
        (v * pp.num_recon_slices + s) =
      bijValueRow pp angle
        (min (pixel_indices.getD v 0) (pp.num_recon_rows * pp.num_recon_cols - 1) /
          pp.num_recon_cols)
        (min (pixel_indices.getD v 0) (pp.num_recon_rows * pp.num_recon_cols - 1) %
          pp.num_recon_cols) s p ∧
      getIdx [] (compute_sparse_Bij_Cij_single_view pixel_indices angle pp p).2.1
        (v * pp.num_recon_slices + s) =
      bijChannelRow pp angle
        (min (pixel_indices.getD v 0) (pp.num_recon_rows * pp.num_recon_cols - 1) /
          pp.num_recon_cols)
        (min (pixel_indices.getD v 0) (pp.num_recon_rows * pp.num_recon_cols - 1) %
          pp.num_recon_cols) s p ∧
      getIdx [] (compute_sparse_Bij_Cij_single_view pixel_indices angle pp p).2.2.1
        (v * pp.num_recon_slices + s) =
      cijValueRow pp angle
        (min (pixel_indices.getD v 0) (pp.num_recon_rows * pp.num_recon_cols - 1) /
          pp.num_recon_cols)
        (min (pixel_indices.getD v 0) (pp.num_recon_rows * pp.num_recon_cols - 1) %
          pp.num_recon_cols) s p ∧
      getIdx [] (compute_sparse_Bij_Cij_single_view pixel_indices angle pp p).2.2.2
        (v * pp.num_recon_slices + s) =
      cijRowRow pp angle
        (min (pixel_indices.getD v 0) (pp.num_recon_rows * pp.num_recon_cols - 1) /
          pp.num_recon_cols)
        (min (pixel_indices.getD v 0) (pp.num_recon_rows * pp.num_recon_cols - 1) %
          pp.num_recon_cols) s p) := by
  have hlen := ijkList_length pixel_indices pp.num_recon_rows pp.num_recon_cols
    pp.num_recon_slices
  have hvs : v * pp.num_recon_slices + s <
      (ijkList pixel_indices pp.num_recon_rows pp.num_recon_cols pp.num_recon_slices).length := by
    rw [hlen]
    have h1 : v * pp.num_recon_slices + s < (v + 1) * pp.num_recon_slices := by
      rw [Nat.succ_mul]
      exact Nat.add_lt_add_left hs _
    exact lt_of_lt_of_le h1 (Nat.mul_le_mul_right _ hv)
  have hget : (ijkList pixel_indices pp.num_recon_rows pp.num_recon_cols
        pp.num_recon_slices).get ⟨v * pp.num_recon_slices + s, hvs⟩ =
      (min (pixel_indices.getD v 0) (pp.num_recon_rows * pp.num_recon_cols - 1) /
          pp.num_recon_cols,
        min (pixel_indices.getD v 0) (pp.num_recon_rows * pp.num_recon_cols - 1) %
          pp.num_recon_cols, s) :=
    (getIdx_lt (0, 0, 0) _ _ hvs).symm.trans
      (ijkList_getIdx pixel_indices pp.num_recon_rows pp.num_recon_cols pp.num_recon_slices
        v s (0, 0, 0) hv hs)
  refine ⟨?_, ?_, ?_⟩
  · simp only [compute_sparse_Bij_Cij_single_view, List.length_map]
    exact ⟨hlen, hlen, hlen, hlen⟩
  · simp only [compute_sparse_Bij_Cij_single_view]
    refine ⟨?_, ?_, ?_, ?_⟩
    all_goals intro row hrow
    all_goals obtain ⟨e, he, hrow⟩ := List.mem_map.mp hrow
    all_goals rw [← hrow]
    · exact bijValueRow_length pp angle e.1 e.2.1 e.2.2 p
    · exact bijChannelRow_length pp angle e.1 e.2.1 e.2.2 p
    · exact cijValueRow_length pp angle e.1 e.2.1 e.2.2 p
    · exact cijRowRow_length pp angle e.1 e.2.1 e.2.2 p
  · simp only [compute_sparse_Bij_Cij_single_view]
    refine ⟨?_, ?_, ?_, ?_⟩
    all_goals rw [getIdx_map_lt _ _ _ _ hvs, hget]

theorem C8_shapes_and_ordering_witness :
    (0 : ℕ) < List.length [0] ∧ (0 : ℕ) < pp1.num_recon_slices ∧
    (compute_sparse_Bij_Cij_single_view [0] 0 pp1 1).1.length =
      List.length [0] * pp1.num_recon_slices ∧
    List.length [0] * pp1.num_recon_slices = 1 :=
  ⟨by decide, by decide,
    (C8_shapes_and_ordering [0] 0 pp1 1 0 0 (by decide) (by decide)).1.1, by decide⟩

/-- The pointwise linear combination `a • x + b • y` of two arrays of the
same shape. -/
noncomputable def addSmul (a : ℝ) (x : NDArr ℝ) (b : ℝ) (y : NDArr ℝ) : NDArr ℝ :=
  NDArr.mk x.shape (List.zipWith (fun u w => a * u + b * w) x.flat y.flat)

/-- Claim C10 (counterexample): the all-zero rank-2 voxel array of shape
(1, 2) does NOT yield an all-zero detector view — the forward projector
fails with a broadcasting error, because `voxel_values[:, None, None]`
(shape (1,1,1,2)) does not broadcast against the einsum output of shape
(1, 3, 3) unless the slice dimension is 1 or 2p+1. -/
theorem C10_zero_input_errors_for_two_slices :
    forward_project_voxels_one_view (NDArr.mk [1, 2] [0, 0]) [0] 0 pp1 =
      Except.error ProjErr.broadcastFail := by
  have hm : NDArr.mul
      (einsum_ki_kj_kij (NDArr.mk [1, 3] [(0:ℝ), 1, 0]) (NDArr.mk [1, 3] [(0:ℝ), 1, 0]))
      (expandMid (NDArr.mk [1, 2] [0, 0])) = none := rfl
  simp only [forward_project_voxels_one_view, sparse_pp1]
  norm_num [List.flatten, hm]

theorem getIdx_zipWith_lin (a b : ℝ) (l1 l2 : List ℝ) (hl : l1.length = l2.length) (n : ℕ) :
    getIdx 0 (List.zipWith (fun u w => a * u + b * w) l1 l2) n =
      a * getIdx 0 l1 n + b * getIdx 0 l2 n := by
  induction l1 generalizing l2 n with
  | nil =>
    have h2 : l2 = [] := by
      cases l2 with
      | nil => rfl
      | cons w l2 => simp at hl
    subst h2
    simp [getIdx_nil]
  | cons u l1 ih =>
    cases l2 with
    | nil => simp at hl
    | cons w l2 =>
      cases n with
      | zero => rfl
      | succ m => exact ih l2 (by simpa using hl) m

theorem scatSum_map_lin {ι : Type} (R C o : ℕ) (a b : ℝ) (rows cols : List ℤ)
    (l : List ι) (f g : ι → ℝ) :
    scatSum R C o rows cols (l.map (fun i => a * f i + b * g i)) =
      a * scatSum R C o rows cols (l.map f) + b * scatSum R C o rows cols (l.map g) := by
  induction l generalizing rows cols with
  | nil => cases rows <;> cases cols <;> simp [scatSum]
  | cons i l ih =>
    cases rows with
    | nil => simp [scatSum]
    | cons r rows =>
      cases cols with
      | nil => simp [scatSum]
      | cons c cols =>
        simp only [List.map_cons, scatSum]
        rw [ih rows cols]
        by_cases hc : scatterOff R C r c = some o <;> simp [hc] <;> ring

theorem zipWith_map_pair {α β γ : Type} (h : β → β → γ) (f g : α → β) (l : List α) :
    List.zipWith h (l.map f) (l.map g) = l.map (fun x => h (f x) (g x)) := by
  induction l with
  | nil => rfl
  | cons a l ih => simp [ih]

theorem index_add_map_lin {ι : Type} (R C : ℕ) (a b : ℝ) (rows cols : List ℤ)
    (l : List ι) (f g : ι → ℝ) :
    index_add R C rows cols (l.map (fun i => a * f i + b * g i)) =
      addSmul a (index_add R C rows cols (l.map f)) b (index_add R C rows cols (l.map g)) := by
  simp only [index_add, addSmul, zipWith_map_pair]
  congr 1
  apply List.map_congr_left
  intro o _
  exact scatSum_map_lin R C o a b rows cols l f g

theorem expandMid_addSmul_getB (a b : ℝ) (x y : NDArr ℝ) (hsh : y.shape = x.shape)
    (hlen : y.flat.length = x.flat.length) (ix : List ℕ) :
    (expandMid (addSmul a x b y)).getB 0 ix =
      a * (expandMid x).getB 0 ix + b * (expandMid y).getB 0 ix := by
  simp only [expandMid, addSmul, NDArr.getB, hsh]
  exact getIdx_zipWith_lin a b x.flat y.flat hlen.symm _

/-- Claim C10 (amended): the forward projector is linear in `voxel_values`
whenever it runs to completion: if it produces detector views for `x` and
for `y` (same shape, same data length), then on `a • x + b • y` it
produces `a • F(x) + b • F(y)`; in particular (a = b = 0, or zero inputs)
an all-zero input that the projector accepts yields the all-zero view.
For slice dimensions other than 1 and 2p+1 the projector instead fails
with the broadcasting error (see the counterexample theorem). -/
theorem C10_forward_linear (voxx voxy : NDArr ℝ) (pixel_indices : List ℕ) (angle : ℝ)
    (pp : ProjectorParams) (a b : ℝ) (Fx Fy : NDArr ℝ)
    (hsh : voxy.shape = voxx.shape) (hlen : voxy.flat.length = voxx.flat.length)
    (hx : forward_project_voxels_one_view voxx pixel_indices angle pp = Except.ok Fx)
    (hy : forward_project_voxels_one_view voxy pixel_indices angle pp = Except.ok Fy) :
    forward_project_voxels_one_view (addSmul a voxx b voxy) pixel_indices angle pp =
      Except.ok (addSmul a Fx b Fy) := by
  simp only [forward_project_voxels_one_view] at hx hy ⊢
  by_cases h2 : voxx.shape.length = 2
  · rw [if_neg (by simp [h2])] at hx
    rw [if_neg (by simp [hsh, h2])] at hy
    rw [if_neg (by simp [addSmul, h2])]
    set sp := compute_sparse_Bij_Cij_single_view pixel_indices angle pp 1 with hsp
    set E := einsum_ki_kj_kij
      (NDArr.mk [sp.1.length, (sp.1.headD []).length] sp.1.flatten)
      (NDArr.mk [sp.1.length, (sp.1.headD []).length] sp.1.flatten) with hE
    set rowsE := NDArr.mk [sp.2.2.2.length, (sp.2.2.2.headD []).length, 1] sp.2.2.2.flatten
      with hRE
    set colsE := NDArr.mk [sp.2.2.2.length, 1, (sp.2.2.2.headD []).length] sp.2.2.2.flatten
      with hCE
    simp only [NDArr.mul] at hx hy ⊢
    have hshc : (expandMid (addSmul a voxx b voxy)).shape = (expandMid voxx).shape := by
      simp [expandMid, addSmul]
    have hshy : (expandMid voxy).shape = (expandMid voxx).shape := by
      simp [expandMid, hsh]
    rw [hshc]
    rw [hshy] at hy
    rcases hbs : broadcastShapes E.shape (expandMid voxx).shape with _ | s
    · rw [hbs] at hx
      simp at hx
    · rw [hbs] at hx hy
      simp only [Option.map_some'] at hx hy ⊢
      have hvals : (allIdx s).map
          (fun ix => E.getB 0 ix * (expandMid (addSmul a voxx b voxy)).getB 0 ix) =
          (allIdx s).map (fun ix =>
            a * (E.getB 0 ix * (expandMid voxx).getB 0 ix) +
              b * (E.getB 0 ix * (expandMid voxy).getB 0 ix)) := by
        apply List.map_congr_left
        intro ix _
        rw [expandMid_addSmul_getB a b voxx voxy hsh hlen ix]
        ring
      rw [hvals]
      rcases hb1 : broadcastTo rowsE (0 : ℤ) s with _ | rA
      · simp [hb1] at hx
      · rcases hb2 : broadcastTo colsE (0 : ℤ) s with _ | cA
        · simp [hb1, hb2] at hx
        · simp only [hb1, hb2] at hx hy ⊢
          rw [← Except.ok.inj hx, ← Except.ok.inj hy]
          rw [index_add_map_lin pp.num_det_rows pp.num_det_channels a b rA.flat cA.flat
            (allIdx s) (fun ix => E.getB 0 ix * (expandMid voxx).getB 0 ix)
            (fun ix => E.getB 0 ix * (expandMid voxy).getB 0 ix)]
  · rw [if_pos (by simpa using h2)] at hx
    exact absurd hx (by simp)

theorem C10_forward_linear_witness :
    forward_project_voxels_one_view
        (addSmul 1 (NDArr.mk [1, 1] [1]) 1 (NDArr.mk [1, 1] [1])) [0] 0 pp1 =
      Except.ok (addSmul 1 (NDArr.mk [3, 3] [0, 0, 0, 0, 1, 0, 0, 0, 0]) 1
        (NDArr.mk [3, 3] [0, 0, 0, 0, 1, 0, 0, 0, 0])) :=
  C10_forward_linear (NDArr.mk [1, 1] [1]) (NDArr.mk [1, 1] [1]) [0] 0 pp1 1 1
    (NDArr.mk [3, 3] [0, 0, 0, 0, 1, 0, 0, 0, 0]) (NDArr.mk [3, 3] [0, 0, 0, 0, 1, 0, 0, 0, 0])
    rfl rfl forward_pp1 forward_pp1
